import Mathlib

set_option maxHeartbeats 1000000

/-
Shallow embedding of src/src/asgi_debugger/basic.py.

The file defines two ASGI middlewares, TimingMiddleware and
QueryLoggerMiddleware, both intercepting the outbound `send` channel of an
ASGI application.  We model:
  * ASGI messages as a record with the fields the code touches
    (`type`, `status`, `headers`, `body`, `more_body`); `message.get("body", b"")`
    becomes the `body` field with default `[]`,
  * Python dicts as association lists with first-occurrence update,
  * `time.monotonic()` as a strictly increasing natural-number tick counter
    threaded through the computation,
  * byte strings as `List Nat`, Python `str` as Lean `String`
    (ASCII-faithful case mapping, which covers every string the code builds),
  * `json.loads` as an explicit function parameter
    `jsonLoads : String -> Option JsonValue` (an external stdlib collaborator;
    `none` models a raised `json.JSONDecodeError`), with a concrete fragment
    `jsonLoadsFrag` used to evaluate witnesses and counterexamples,
  * `bytes.decode("utf-8")` as a genuine UTF-8 validator/decoder returning
    `Option String` (`none` models a raised `UnicodeDecodeError`),
  * starlette's `MutableHeaders.update` (an external dependency of the code)
    following its `__setitem__` semantics: the inserted key is lowercased,
    an existing entry with exactly that key is replaced in place (duplicates
    removed), otherwise the pair is appended.
-/

/- ---------------------------------------------------------------- -/
/- Python dictionaries as association lists                          -/
/- ---------------------------------------------------------------- -/

/-- Python dict with `String` keys: an association list in insertion order,
keys unique by construction of `dictSet`. -/
abbrev PyDict (α : Type) := List (String × α)

/-- Python `d[k] = v`: overwrite the first occurrence in place, else append. -/
def dictSet {α : Type} : PyDict α → String → α → PyDict α
  | [], k, v => [(k, v)]
  | p :: rest, k, v => if p.1 = k then (k, v) :: rest else p :: dictSet rest k v

/-- Python `d.get(k)` / `d[k]`. -/
def dictGet {α : Type} : PyDict α → String → Option α
  | [], _ => none
  | p :: rest, k => if p.1 = k then some p.2 else dictGet rest k

/- ---------------------------------------------------------------- -/
/- Python string helpers (ASCII-faithful)                            -/
/- ---------------------------------------------------------------- -/

/-- Python `s.lower()` (ASCII range, which covers all strings built here). -/
def pyLower (s : String) : String := String.mk (s.data.map Char.toLower)

/-- CPython `str.title()` char loop: a char after a cased (alphabetic) char is
lowercased, otherwise it is titlecased (uppercased); the boolean tracks
whether the previous char was cased. -/
def pyTitleChars : Bool → List Char → List Char
  | _, [] => []
  | prevCased, c :: cs =>
    (if prevCased then c.toLower else c.toUpper) :: pyTitleChars c.isAlpha cs

/-- Python `s.title()`. -/
def pyTitle (s : String) : String := String.mk (pyTitleChars false s.data)

/-- Python `s.replace("_", "-")` (single-character pattern, hence a char map). -/
def pyReplaceUnderscore (s : String) : String :=
  String.mk (s.data.map fun c => if c = '_' then '-' else c)

/-- Python `s.removeprefix(p)`. -/
def pyRemovePfx (s p : String) : String :=
  if p.data.isPrefixOf s.data then String.mk (s.data.drop p.data.length) else s

/-- The six ASCII whitespace chars Python's `str.strip()` removes. -/
def isPySpace (c : Char) : Bool :=
  c = ' ' || c = '\t' || c = '\n' || c = '\r' || c = '\x0b' || c = '\x0c'

/-- Python `s.strip()`. -/
def pyStrip (s : String) : String :=
  String.mk (((s.data.dropWhile isPySpace).reverse.dropWhile isPySpace).reverse)

/- ---------------------------------------------------------------- -/
/- UTF-8 decoding, modelling bytes.decode("utf-8")                   -/
/- ---------------------------------------------------------------- -/

/-- A UTF-8 continuation byte. -/
def contByte (b : Nat) : Bool := decide (0x80 ≤ b ∧ b < 0xC0)

/-- UTF-8 decoder (strict: rejects overlong forms, surrogates and values
above U+10FFFF, exactly like Python's `bytes.decode("utf-8")`).  The fuel is
the byte count; every step consumes at least one byte. -/
def utf8DecodeFuel : Nat → List Nat → Option (List Char)
  | _, [] => some []
  | 0, _ :: _ => none
  | fuel + 1, b :: bs =>
    if b < 0x80 then
      (utf8DecodeFuel fuel bs).map (fun cs => Char.ofNat b :: cs)
    else if b < 0xC2 then none
    else if b < 0xE0 then
      match bs with
      | b1 :: bs1 =>
        if contByte b1 then
          (utf8DecodeFuel fuel bs1).map
            (fun cs => Char.ofNat ((b - 0xC0) * 64 + (b1 - 0x80)) :: cs)
        else none
      | [] => none
    else if b < 0xF0 then
      match bs with
      | b1 :: b2 :: bs2 =>
        if contByte b1 && contByte b2 && decide (b ≠ 0xE0 ∨ 0xA0 ≤ b1) then
          let cp := (b - 0xE0) * 4096 + (b1 - 0x80) * 64 + (b2 - 0x80)
          if decide (0xD800 ≤ cp ∧ cp ≤ 0xDFFF) then none
          else (utf8DecodeFuel fuel bs2).map (fun cs => Char.ofNat cp :: cs)
        else none
      | _ => none
    else if b < 0xF5 then
      match bs with
      | b1 :: b2 :: b3 :: bs3 =>
        if contByte b1 && contByte b2 && contByte b3
            && decide (b ≠ 0xF0 ∨ 0x90 ≤ b1) && decide (b ≠ 0xF4 ∨ b1 < 0x90) then
          let cp := (b - 0xF0) * 262144 + (b1 - 0x80) * 4096
                      + (b2 - 0x80) * 64 + (b3 - 0x80)
          (utf8DecodeFuel fuel bs3).map (fun cs => Char.ofNat cp :: cs)
        else none
      | _ => none
    else none

/-- `data.decode("utf-8")`: `none` models a raised `UnicodeDecodeError`. -/
def utf8Decode (l : List Nat) : Option String :=
  (utf8DecodeFuel l.length l).map String.mk

/- ---------------------------------------------------------------- -/
/- JSON values and json.loads                                        -/
/- ---------------------------------------------------------------- -/

/-- Python values produced by `json.loads` (ints model JSON numbers; the
source never relies on fractional values). -/
inductive JsonValue where
  | null
  | bool (b : Bool)
  | num (n : Int)
  | str (s : String)
  | arr (elems : List JsonValue)
  | obj (fields : List (String × JsonValue))

/-- Python truthiness of a parsed-JSON / str value, as used by
`if response_data and ...`. -/
def jsonTruthy : JsonValue → Bool
  | JsonValue.null => false
  | JsonValue.bool b => b
  | JsonValue.num n => decide (n ≠ 0)
  | JsonValue.str s => decide (s ≠ "")
  | JsonValue.arr l => !l.isEmpty
  | JsonValue.obj l => !l.isEmpty

/-- Python equality of such a value with the string literal `"[DONE]"`
(only a `str` can equal a `str`). -/
def pyEqDoneStr : JsonValue → Bool
  | JsonValue.str s => decide (s = "[DONE]")
  | _ => false

/-- Modelled from the spec: Python's stdlib `json.loads` (an external
collaborator of the code, not part of this repository) restricted to the
fragment the witnesses and counterexamples exercise: the literals `null`,
`true`, `false`, non-negative integers without redundant leading zeros, and
double-quoted strings without escapes or inner quotes.  Everything else,
including the empty string and `[DONE]`, is a parse error (`none`), exactly
as for the real `json.loads`.  The middleware model itself is parameterized
over an arbitrary `jsonLoads`; this fragment only instantiates it. -/
def jsonLoadsFrag (s : String) : Option JsonValue :=
  let cs := s.data
  if s = "null" then some JsonValue.null
  else if s = "true" then some (JsonValue.bool true)
  else if s = "false" then some (JsonValue.bool false)
  else if s = "0" then some (JsonValue.num 0)
  else if !cs.isEmpty && cs.all Char.isDigit && (cs.head? != some '0') then
    some (JsonValue.num (Int.ofNat
      (cs.foldl (fun acc c => acc * 10 + (c.toNat - 48)) 0)))
  else if decide (cs.length ≥ 2) && (cs.head? == some '"')
      && (cs.getLast? == some '"')
      && (cs.drop 1).dropLast.all (fun c => c ≠ '"' && c ≠ '\\') then
    some (JsonValue.str (String.mk ((cs.drop 1).dropLast)))
  else none

/- ---------------------------------------------------------------- -/
/- ASGI messages, scopes, exceptions, log records                    -/
/- ---------------------------------------------------------------- -/

/-- An ASGI message, with exactly the fields the code touches.
`message.get("body", b"")` becomes the `body` field with default `[]`;
`message["type"]` and `message["headers"]` become the corresponding fields.
Header names/values are latin-1 byte strings, modelled as `String`. -/
structure Message where
  type : String
  status : Nat := 0
  headers : List (String × String) := []
  body : List Nat := []
  more_body : Bool := false
deriving DecidableEq

/-- An ASGI scope, with the fields the code reads. -/
structure Scope where
  type : String
  method : String := ""
  path : String := ""

/-- A raised Python exception, as far as the model needs to distinguish. -/
inductive PyExc where
  | unicodeDecodeError (data : List Nat)
  | exc (name : String)
deriving DecidableEq

/-- One emitted log record, carrying the structured content of the line.
`timingExit` and `queryExit` are the per-request exit records written in the
`finally:` blocks; `queryEvent` is QueryLoggerMiddleware's per-event
"Got request data" line.  In `queryExit`, `none` renders as the literal text
"None" in the real log line. -/
inductive LogRecord where
  | timingExit (method path : String) (state : PyDict Nat)
  | queryEvent (message : Message)
  | queryExit (method path : String) (request_data response_data : Option JsonValue)

/-- Whether a record is a per-request exit record. -/
def LogRecord.isExit : LogRecord → Bool
  | LogRecord.timingExit .. => true
  | LogRecord.queryExit .. => true
  | LogRecord.queryEvent _ => false

/-- The downstream ASGI application, modelled by its observable behaviour in
one request: the messages it passes to `send`, in order, followed by a normal
return (`none`) or a raised exception (`some e`).  A run that raises after
sending a prefix of messages is the instance with that prefix as `events`. -/
structure AppRun where
  events : List Message
  outcome : Option PyExc := none

/-- The observable outcome of one `__call__` of a middleware: the messages
that reached the real `send`, the log records emitted, in order, and the
middleware's own return (`none`) or raised exception (`some e`). -/
structure RunResult where
  sent : List Message
  logs : List LogRecord
  result : Option PyExc

/- ---------------------------------------------------------------- -/
/- map_state_to_headers (source lines 17-19)                         -/
/- ---------------------------------------------------------------- -/

/-- The key transform of `map_state_to_headers`:
`"X-Bug-" + k.replace("_", "-").title()`. -/
def headerKey (k : String) : String :=
  "X-Bug-" ++ pyTitle (pyReplaceUnderscore k)

/-- `map_state_to_headers(state)`: the dict comprehension
`{"X-Bug-" + k.replace("_", "-").title(): str(v) for k, v in state.items()}`.
`pyStr` is Python's `str()` on the (dynamically typed) dict values. -/
def map_state_to_headers {α : Type} (pyStr : α → String) (state : PyDict α) :
    PyDict String :=
  state.foldl (fun d kv => dictSet d (headerKey kv.1) (pyStr kv.2)) []

/- ---------------------------------------------------------------- -/
/- starlette MutableHeaders (external dependency of the source)      -/
/- ---------------------------------------------------------------- -/

/-- `MutableHeaders.__setitem__` once the key is already lowercased to `sk`:
replace the first entry whose raw key equals `sk` and delete the other such
entries, else append `(sk, v)`. -/
def mhSetItemAux (sk v : String) : List (String × String) → List (String × String)
  | [] => [(sk, v)]
  | p :: rest =>
    if p.1 = sk then (sk, v) :: rest.filter (fun q => q.1 ≠ sk)
    else p :: mhSetItemAux sk v rest

/-- `MutableHeaders.__setitem__(key, value)`: the stored key is
`key.lower().encode("latin-1")`. -/
def mhSetItem (hs : List (String × String)) (key value : String) :
    List (String × String) :=
  mhSetItemAux (pyLower key) value hs

/-- `MutableHeaders(raw=...).update(d)`: one `__setitem__` per dict item,
in dict order. -/
def mutableHeadersUpdate (hs : List (String × String)) (upd : PyDict String) :
    List (String × String) :=
  upd.foldl (fun acc kv => mhSetItem acc kv.1 kv.2) hs

/- ---------------------------------------------------------------- -/
/- TimingMiddleware (source lines 44-78)                             -/
/- ---------------------------------------------------------------- -/

/-- Result of one intercepted send: the clock after the call, the state after
the call, and the message handed to the real `send`. -/
structure TStep where
  clock : Nat
  state : PyDict Nat
  msg : Message

/-- `TimingMiddleware.send_wrapper(message, send, state)`.  Each
`time.monotonic()` reads the current tick and advances the clock.  On an
`http.request` message it records `receive_time`; on `http.response.start`
it records `respond_time` and merges `map_state_to_headers(state)` into the
message's headers; it always forwards exactly one message, at the end. -/
def TimingMiddleware.send_wrapper (clock : Nat) (state : PyDict Nat)
    (message : Message) : TStep :=
  let p :=
    if message.type = "http.request" then
      (clock + 1, dictSet state "receive_time" clock)
    else (clock, state)
  if message.type = "http.response.start" then
    let state2 := dictSet p.2 "respond_time" p.1
    let headers := mutableHeadersUpdate message.headers
        (map_state_to_headers (fun v : Nat => toString v) state2)
    ⟨p.1 + 1, state2, { message with headers := headers }⟩
  else ⟨p.1, p.2, message⟩

/-- Result of feeding a list of messages through the intercepted send. -/
structure TProc where
  clock : Nat
  state : PyDict Nat
  sent : List Message

/-- The downstream application's sends, one `TimingMiddleware.send_wrapper`
call per message, threading clock and state. -/
def timingProcess (clock : Nat) (state : PyDict Nat) :
    List Message → TProc
  | [] => ⟨clock, state, []⟩
  | m :: ms =>
    let r := TimingMiddleware.send_wrapper clock state m
    let rest := timingProcess r.clock r.state ms
    ⟨rest.clock, rest.state, r.msg :: rest.sent⟩

/-- `TimingMiddleware.__call__(scope, receive, send)`.  A non-"http" scope
delegates untouched.  Otherwise: state starts as
`{"start_time": time.monotonic()}`, the app runs with the intercepted send,
and the `finally:` block records `end_time` and emits exactly one exit log
record before the app's outcome (normal or raised) propagates unchanged. -/
def TimingMiddleware.run (clock : Nat) (scope : Scope) (app : AppRun) :
    RunResult :=
  if scope.type ≠ "http" then ⟨app.events, [], app.outcome⟩
  else
    let state : PyDict Nat := [("start_time", clock)]
    let r := timingProcess (clock + 1) state app.events
    let finalState := dictSet r.state "end_time" r.clock
    ⟨r.sent, [LogRecord.timingExit scope.method scope.path finalState],
      app.outcome⟩

/- ---------------------------------------------------------------- -/
/- QueryLoggerMiddleware (source lines 81-129)                       -/
/- ---------------------------------------------------------------- -/

/-- `QueryLoggerMiddleware._clean_data(data)`:
`data.decode("utf-8").removeprefix("data: ").strip()`.  The decode happens
outside any `try:`; `none` models the `UnicodeDecodeError` it raises. -/
def QueryLoggerMiddleware.clean_data (data : List Nat) : Option String :=
  (utf8Decode data).map (fun s => pyStrip (pyRemovePfx s "data: "))

/-- `try: json.loads(data) except json.JSONDecodeError: data` — the parsed
value on success, the cleaned text itself on a parse error. -/
def fallbackDecode (jsonLoads : String → Option JsonValue) (text : String) :
    JsonValue :=
  match jsonLoads text with
  | some v => v
  | none => JsonValue.str text

/-- `QueryLoggerMiddleware.send_wrapper(message, send, state)`: first the
unconditional per-event log record, then (for `http.request`) store
`request_data`, then (for `http.response.body`) store `response_data` when
the value is truthy and not `"[DONE]"`, then forward the message unchanged.
A `UnicodeDecodeError` from `_clean_data` aborts before the real send and
propagates (`Except.error`); the per-event record was already emitted. -/
def QueryLoggerMiddleware.send_wrapper (jsonLoads : String → Option JsonValue)
    (message : Message) (state : PyDict JsonValue) :
    List LogRecord × Except PyExc (PyDict JsonValue × Message) :=
  let logs := [LogRecord.queryEvent message]
  let step1 : Except PyExc (PyDict JsonValue) :=
    if message.type = "http.request" then
      match QueryLoggerMiddleware.clean_data message.body with
      | none => Except.error (PyExc.unicodeDecodeError message.body)
      | some text =>
        Except.ok (dictSet state "request_data" (fallbackDecode jsonLoads text))
    else Except.ok state
  match step1 with
  | Except.error e => (logs, Except.error e)
  | Except.ok st1 =>
    if message.type = "http.response.body" then
      match QueryLoggerMiddleware.clean_data message.body with
      | none => (logs, Except.error (PyExc.unicodeDecodeError message.body))
      | some text =>
        let response_data := fallbackDecode jsonLoads text
        if jsonTruthy response_data && !pyEqDoneStr response_data then
          (logs, Except.ok (dictSet st1 "response_data" response_data, message))
        else (logs, Except.ok (st1, message))
    else (logs, Except.ok (st1, message))

/-- Result of feeding messages through QueryLoggerMiddleware's intercepted
send: final state, messages that reached the real send, log records, and the
exception (if any) that aborted the sequence. -/
structure QProc where
  state : PyDict JsonValue
  sent : List Message
  logs : List LogRecord
  err : Option PyExc

/-- The downstream application's sends under QueryLoggerMiddleware; a raised
hook error stops the sequence (the exception propagates into the app's
`await send(...)`), later messages are never sent. -/
def queryProcess (jsonLoads : String → Option JsonValue) :
    List Message → PyDict JsonValue → QProc
  | [], st => ⟨st, [], [], none⟩
  | m :: ms, st =>
    let r := QueryLoggerMiddleware.send_wrapper jsonLoads m st
    match r.2 with
    | Except.error e => ⟨st, [], r.1, some e⟩
    | Except.ok (st1, m1) =>
      let rest := queryProcess jsonLoads ms st1
      ⟨rest.state, m1 :: rest.sent, r.1 ++ rest.logs, rest.err⟩

/-- `QueryLoggerMiddleware.__call__(scope, receive, send)`.  A non-"http"
scope delegates untouched.  Otherwise state starts empty, the app runs with
the intercepted send, and the `finally:` block emits exactly one exit record
(with `state.get("request_data")` / `state.get("response_data")`); the
error that escaped the `try:` body — the hook's own error if one was raised,
else the app's — propagates unchanged after the record. -/
def QueryLoggerMiddleware.run (jsonLoads : String → Option JsonValue)
    (scope : Scope) (app : AppRun) : RunResult :=
  if scope.type ≠ "http" then ⟨app.events, [], app.outcome⟩
  else
    let r := queryProcess jsonLoads app.events []
    let result := match r.err with
      | some e => some e
      | none => app.outcome
    ⟨r.sent,
      r.logs ++ [LogRecord.queryExit scope.method scope.path
        (dictGet r.state "request_data") (dictGet r.state "response_data")],
      result⟩

/-- The raised exception of a hook call, if any. -/
def exceptErr {ε α : Type} : Except ε α → Option ε
  | Except.error e => some e
  | Except.ok _ => none

/-- The success value of a hook call, if any. -/
def exceptOk {ε α : Type} : Except ε α → Option α
  | Except.error _ => none
  | Except.ok a => some a

/- ---------------------------------------------------------------- -/
/- Spec-side definitions and invariant predicates                    -/
/- ---------------------------------------------------------------- -/

/-- Split a char list at every `'-'` (Python `s.split("-")` shape). -/
def splitDash : List Char → List (List Char)
  | [] => [[]]
  | c :: cs =>
    if c = '-' then [] :: splitDash cs
    else
      match splitDash cs with
      | [] => [[c]]
      | s :: ss => (c :: s) :: ss

/-- Join char-list segments with `'-'`. -/
def interDash : List (List Char) → List Char
  | [] => []
  | [s] => s
  | s :: ss => s ++ '-' :: interDash ss

/-- The key transform as the spec words it: replace `_` with `-`, title-case
each hyphen-separated segment, prefix with `X-Bug-`. -/
def specHeaderKey (k : String) : String :=
  "X-Bug-" ++ String.mk
    (interDash ((splitDash (pyReplaceUnderscore k).data).map (pyTitleChars false)))

/-- The Header Projector as the spec describes it: a mapping with keys
transformed per `specHeaderKey` and values stringified. -/
def spec_map_state_to_headers {α : Type} (pyStr : α → String) (state : PyDict α) :
    PyDict String :=
  state.map (fun kv => (specHeaderKey kv.1, pyStr kv.2))

/-- Per-event correspondence: the forwarded message keeps the incoming type,
status, body and more_body, and any message other than `http.response.start`
is forwarded entirely unchanged. -/
def TRelBasic (m m' : Message) : Prop :=
  m'.type = m.type ∧ m'.status = m.status ∧ m'.body = m.body ∧
    m'.more_body = m.more_body ∧ (m.type ≠ "http.response.start" → m' = m)

/-- Per-event correspondence: any header of the forwarded message whose
lowercased name is `x-bug-end-time` was already a header of the incoming
message (the middleware never injects that name). -/
def NoNewEndTime (m m' : Message) : Prop :=
  ∀ p ∈ m'.headers, pyLower p.1 = "x-bug-end-time" → p ∈ m.headers

/-- During event processing the Timing state only ever holds these keys. -/
def KeysOK (st : PyDict Nat) : Prop :=
  ∀ kv ∈ st, kv.1 = "start_time" ∨ kv.1 = "receive_time" ∨ kv.1 = "respond_time"

/-- Clock/state invariant of TimingMiddleware during event processing:
`start_time` is the entry tick `t0`, every recorded tick is below the
current clock, any recorded `receive_time` lies strictly between `t0` and
the clock, only the three processing keys occur, and keys are unique. -/
def TInv (t0 : Nat) (st : PyDict Nat) (c : Nat) : Prop :=
  dictGet st "start_time" = some t0 ∧ t0 < c ∧
    (∀ r, dictGet st "receive_time" = some r → t0 < r ∧ r < c) ∧
    KeysOK st ∧ (st.map Prod.fst).Nodup

/- ---------------------------------------------------------------- -/
/- Dictionary lemmas                                                 -/
/- ---------------------------------------------------------------- -/

theorem dictGet_dictSet_self {α : Type} (d : PyDict α) (k : String) (v : α) :
    dictGet (dictSet d k v) k = some v := by
  induction d with
  | nil => simp [dictSet, dictGet]
  | cons p rest ih =>
    by_cases h : p.1 = k
    · simp [dictSet, dictGet, h]
    · simp [dictSet, dictGet, h, ih]

theorem dictGet_dictSet_ne {α : Type} (d : PyDict α) {k k' : String} (v : α)
    (h : k' ≠ k) : dictGet (dictSet d k v) k' = dictGet d k' := by
  induction d with
  | nil =>
    simp only [dictSet, dictGet]
    rw [if_neg (fun hh => h hh.symm)]
  | cons p rest ih =>
    by_cases hp : p.1 = k
    · simp only [dictSet, if_pos hp, dictGet]
      rw [if_neg (fun hh => h hh.symm), if_neg (by rw [hp]; exact fun hh => h hh.symm)]
    · simp only [dictSet, if_neg hp, dictGet, ih]

theorem dictGet_mem {α : Type} {d : PyDict α} {k : String} {v : α}
    (h : dictGet d k = some v) : (k, v) ∈ d := by
  induction d with
  | nil => simp [dictGet] at h
  | cons p rest ih =>
    by_cases hp : p.1 = k
    · simp only [dictGet, if_pos hp, Option.some.injEq] at h
      subst h
      subst hp
      simp
    · simp only [dictGet, if_neg hp] at h
      exact List.mem_cons_of_mem _ (ih h)

theorem dictSet_mem {α : Type} {d : PyDict α} {k : String} {v : α} {p : String × α}
    (h : p ∈ dictSet d k v) : p = (k, v) ∨ p ∈ d := by
  induction d with
  | nil => simpa [dictSet] using h
  | cons q rest ih =>
    by_cases hq : q.1 = k
    · simp only [dictSet, if_pos hq, List.mem_cons] at h
      rcases h with h | h
      · exact Or.inl h
      · exact Or.inr (List.mem_cons_of_mem _ h)
    · simp only [dictSet, if_neg hq, List.mem_cons] at h
      rcases h with h | h
      · exact Or.inr (by simp [h])
      · rcases ih h with h' | h'
        · exact Or.inl h'
        · exact Or.inr (List.mem_cons_of_mem _ h')

theorem mem_map_fst_dictSet {α : Type} {d : PyDict α} {k x : String} {v : α}
    (h : x ∈ (dictSet d k v).map Prod.fst) : x ∈ d.map Prod.fst ∨ x = k := by
  rcases List.mem_map.mp h with ⟨p, hp, rfl⟩
  rcases dictSet_mem hp with h' | h'
  · right; rw [h']
  · left; exact List.mem_map_of_mem _ h'

theorem keysNodup_dictSet {α : Type} {d : PyDict α} (k : String) (v : α)
    (h : (d.map Prod.fst).Nodup) : ((dictSet d k v).map Prod.fst).Nodup := by
  induction d with
  | nil => simp [dictSet]
  | cons p rest ih =>
    simp only [List.map_cons, List.nodup_cons] at h
    by_cases hp : p.1 = k
    · simp only [dictSet, if_pos hp, List.map_cons, List.nodup_cons]
      exact ⟨by rw [← hp]; exact h.1, h.2⟩
    · simp only [dictSet, if_neg hp, List.map_cons, List.nodup_cons]
      refine ⟨fun hmem => ?_, ih h.2⟩
      rcases mem_map_fst_dictSet hmem with h' | h'
      · exact h.1 h'
      · exact hp h'

theorem dictSet_append_fresh {α : Type} {d : PyDict α} {k : String} (v : α)
    (h : ∀ p ∈ d, p.1 ≠ k) : dictSet d k v = d ++ [(k, v)] := by
  induction d with
  | nil => simp [dictSet]
  | cons p rest ih =>
    have hp : p.1 ≠ k := h p (List.mem_cons_self _ _)
    simp only [dictSet, if_neg hp, List.cons_append, List.cons.injEq, true_and]
    exact ih (fun q hq => h q (List.mem_cons_of_mem _ hq))

/- ---------------------------------------------------------------- -/
/- MutableHeaders lemmas                                             -/
/- ---------------------------------------------------------------- -/

theorem mhSetItemAux_self_mem (sk v : String) (hs : List (String × String)) :
    (sk, v) ∈ mhSetItemAux sk v hs := by
  induction hs with
  | nil => simp [mhSetItemAux]
  | cons p rest ih =>
    by_cases hp : p.1 = sk
    · simp [mhSetItemAux, hp]
    · simp only [mhSetItemAux, if_neg hp, List.mem_cons]
      exact Or.inr ih

theorem mhSetItemAux_preserve {sk v : String} {hs : List (String × String)}
    {p : String × String} (hmem : p ∈ hs) (hne : p.1 ≠ sk) :
    p ∈ mhSetItemAux sk v hs := by
  induction hs with
  | nil => simp at hmem
  | cons q rest ih =>
    rcases List.mem_cons.mp hmem with rfl | hmem'
    · by_cases hq : p.1 = sk
      · exact absurd hq hne
      · simp [mhSetItemAux, hq]
    · by_cases hq : q.1 = sk
      · simp only [mhSetItemAux, if_pos hq, List.mem_cons]
        exact Or.inr (List.mem_filter.mpr ⟨hmem', by simpa using hne⟩)
      · simp only [mhSetItemAux, if_neg hq, List.mem_cons]
        exact Or.inr (ih hmem')

theorem mhSetItemAux_mem {sk v : String} {hs : List (String × String)}
    {p : String × String} (h : p ∈ mhSetItemAux sk v hs) :
    p = (sk, v) ∨ p ∈ hs := by
  induction hs with
  | nil => simpa [mhSetItemAux] using h
  | cons q rest ih =>
    by_cases hq : q.1 = sk
    · simp only [mhSetItemAux, if_pos hq, List.mem_cons] at h
      rcases h with h | h
      · exact Or.inl h
      · exact Or.inr (List.mem_cons_of_mem _ (List.mem_filter.mp h).1)
    · simp only [mhSetItemAux, if_neg hq, List.mem_cons] at h
      rcases h with h | h
      · exact Or.inr (by simp [h])
      · rcases ih h with h' | h'
        · exact Or.inl h'
        · exact Or.inr (List.mem_cons_of_mem _ h')

theorem mutableHeadersUpdate_cons (hs : List (String × String))
    (kv : String × String) (rest : PyDict String) :
    mutableHeadersUpdate hs (kv :: rest) =
      mutableHeadersUpdate (mhSetItem hs kv.1 kv.2) rest := by
  simp [mutableHeadersUpdate]

theorem mutableHeadersUpdate_preserve {hs : List (String × String)}
    {upd : PyDict String} {p : String × String}
    (hfresh : ∀ kv ∈ upd, pyLower kv.1 ≠ p.1) (hmem : p ∈ hs) :
    p ∈ mutableHeadersUpdate hs upd := by
  induction upd generalizing hs with
  | nil => simpa [mutableHeadersUpdate] using hmem
  | cons kv rest ih =>
    rw [mutableHeadersUpdate_cons]
    refine ih (fun q hq => hfresh q (List.mem_cons_of_mem _ hq)) ?_
    exact mhSetItemAux_preserve hmem
      (fun hh => hfresh kv (List.mem_cons_self _ _) hh.symm)

theorem mutableHeadersUpdate_mem_of (hs : List (String × String))
    {upd : PyDict String} {kv : String × String} (hmem : kv ∈ upd)
    (hnodup : (upd.map (fun q => pyLower q.1)).Nodup) :
    (pyLower kv.1, kv.2) ∈ mutableHeadersUpdate hs upd := by
  induction upd generalizing hs with
  | nil => simp at hmem
  | cons q rest ih =>
    simp only [List.map_cons, List.nodup_cons] at hnodup
    rcases List.mem_cons.mp hmem with rfl | hmem'
    · rw [mutableHeadersUpdate_cons]
      refine mutableHeadersUpdate_preserve (fun q' hq' hh => ?_) ?_
      · have hh' : pyLower q'.1 = pyLower kv.1 := hh
        exact hnodup.1 (hh' ▸ List.mem_map_of_mem _ hq')
      · exact mhSetItemAux_self_mem _ _ _
    · rw [mutableHeadersUpdate_cons]
      exact ih _ hmem' hnodup.2

theorem mutableHeadersUpdate_src {hs : List (String × String)}
    {upd : PyDict String} {p : String × String}
    (h : p ∈ mutableHeadersUpdate hs upd) :
    p ∈ hs ∨ ∃ kv ∈ upd, p.1 = pyLower kv.1 := by
  induction upd generalizing hs with
  | nil => exact Or.inl (by simpa [mutableHeadersUpdate] using h)
  | cons q rest ih =>
    rw [mutableHeadersUpdate_cons] at h
    rcases ih h with h' | ⟨kv, hkv, hp⟩
    · rcases mhSetItemAux_mem h' with h'' | h''
      · exact Or.inr ⟨q, List.mem_cons_self _ _, by rw [h'']⟩
      · exact Or.inl h''
    · exact Or.inr ⟨kv, List.mem_cons_of_mem _ hkv, hp⟩

/- ---------------------------------------------------------------- -/
/- map_state_to_headers lemmas                                       -/
/- ---------------------------------------------------------------- -/

theorem map_state_to_headers_src {α : Type} {pyStr : α → String}
    {st : PyDict α} {p : String × String} :
    ∀ {acc : PyDict String},
      p ∈ st.foldl (fun d kv => dictSet d (headerKey kv.1) (pyStr kv.2)) acc →
      p ∈ acc ∨ ∃ kv ∈ st, p.1 = headerKey kv.1 := by
  induction st with
  | nil => intro acc h; exact Or.inl (by simpa using h)
  | cons kv rest ih =>
    intro acc h
    simp only [List.foldl_cons] at h
    rcases ih h with h' | ⟨kv', hkv', hp⟩
    · rcases dictSet_mem h' with h'' | h''
      · exact Or.inr ⟨kv, List.mem_cons_self _ _, by rw [h'']⟩
      · exact Or.inl h''
    · exact Or.inr ⟨kv', List.mem_cons_of_mem _ hkv', hp⟩

theorem map_state_to_headers_mem_src {α : Type} {pyStr : α → String}
    {st : PyDict α} {p : String × String}
    (h : p ∈ map_state_to_headers pyStr st) :
    ∃ kv ∈ st, p.1 = headerKey kv.1 := by
  have h0 : p ∈ st.foldl
      (fun d kv => dictSet d (headerKey kv.1) (pyStr kv.2)) [] := h
  rcases map_state_to_headers_src h0 with h' | h'
  · simp at h'
  · exact h'

theorem map_state_to_headers_eq_map_aux {α : Type} (pyStr : α → String) :
    ∀ (st : PyDict α) (acc : PyDict String),
      (∀ kv ∈ st, ∀ p ∈ acc, p.1 ≠ headerKey kv.1) →
      (st.map (fun kv => headerKey kv.1)).Nodup →
      st.foldl (fun d kv => dictSet d (headerKey kv.1) (pyStr kv.2)) acc =
        acc ++ st.map (fun kv => (headerKey kv.1, pyStr kv.2)) := by
  intro st
  induction st with
  | nil => intro acc _ _; simp
  | cons kv rest ih =>
    intro acc hfresh hnodup
    simp only [List.map_cons, List.nodup_cons] at hnodup
    simp only [List.foldl_cons]
    rw [dictSet_append_fresh _ (fun p hp => hfresh kv (List.mem_cons_self _ _) p hp)]
    rw [ih (acc ++ [(headerKey kv.1, pyStr kv.2)]) ?_ hnodup.2]
    · simp
    · intro kv' hkv' p hp
      rcases List.mem_append.mp hp with hp' | hp'
      · exact hfresh kv' (List.mem_cons_of_mem _ hkv') p hp'
      · have : p = (headerKey kv.1, pyStr kv.2) := by simpa using hp'
        rw [this]
        intro hh
        have hh' : headerKey kv.1 = headerKey kv'.1 := hh
        exact hnodup.1 (hh'.symm ▸ List.mem_map_of_mem _ hkv')

theorem map_state_to_headers_eq_map {α : Type} (pyStr : α → String)
    (st : PyDict α) (hnodup : (st.map (fun kv => headerKey kv.1)).Nodup) :
    map_state_to_headers pyStr st =
      st.map (fun kv => (headerKey kv.1, pyStr kv.2)) := by
  have := map_state_to_headers_eq_map_aux pyStr st [] (by simp) hnodup
  simpa [map_state_to_headers] using this

/- ---------------------------------------------------------------- -/
/- Title-casing distributes over hyphen-separated segments           -/
/- ---------------------------------------------------------------- -/

theorem splitDash_ne_nil (cs : List Char) : splitDash cs ≠ [] := by
  cases cs with
  | nil => simp [splitDash]
  | cons c cs =>
    simp only [splitDash]
    by_cases h : c = '-'
    · simp [h]
    · rw [if_neg h]
      cases hs : splitDash cs <;> simp

theorem interDash_cons_cons (x : Char) (xs : List Char)
    (rest : List (List Char)) :
    interDash ((x :: xs) :: rest) = x :: interDash (xs :: rest) := by
  cases rest with
  | nil => simp [interDash]
  | cons s ss => simp [interDash]

theorem pyTitleChars_splitDash :
    ∀ (cs : List Char) (b : Bool) (s : List Char) (ss : List (List Char)),
      splitDash cs = s :: ss →
      pyTitleChars b cs =
        interDash (pyTitleChars b s :: ss.map (pyTitleChars false)) := by
  intro cs
  induction cs with
  | nil =>
    intro b s ss h
    simp only [splitDash] at h
    cases h
    simp [pyTitleChars, interDash]
  | cons c cs ih =>
    intro b s ss h
    by_cases hc : c = '-'
    · subst hc
      simp only [splitDash, if_pos rfl] at h
      cases h
      obtain ⟨s', ss', hs'⟩ : ∃ s' ss', splitDash cs = s' :: ss' := by
        cases hcs : splitDash cs with
        | nil => exact absurd hcs (splitDash_ne_nil cs)
        | cons a as => exact ⟨a, as, rfl⟩
      rw [hs']
      simp only [pyTitleChars, List.map_cons]
      have hd : (if b then '-'.toLower else '-'.toUpper) = '-' := by
        cases b <;> decide
      rw [hd, show ('-'.isAlpha) = false from by decide]
      simp only [interDash, List.nil_append]
      exact congrArg (fun l => '-' :: l) (ih false s' ss' hs')
    · simp only [splitDash, if_neg hc] at h
      obtain ⟨s', ss', hs'⟩ : ∃ s' ss', splitDash cs = s' :: ss' := by
        cases hcs : splitDash cs with
        | nil => exact absurd hcs (splitDash_ne_nil cs)
        | cons a as => exact ⟨a, as, rfl⟩
      rw [hs'] at h
      obtain ⟨h1, h2⟩ := List.cons.inj h
      subst h1
      subst h2
      simp only [pyTitleChars, List.map_cons]
      rw [interDash_cons_cons]
      exact congrArg (fun l => (if b then c.toLower else c.toUpper) :: l)
        (ih c.isAlpha s' ss' hs')

theorem specHeaderKey_eq_headerKey (k : String) :
    specHeaderKey k = headerKey k := by
  unfold specHeaderKey headerKey pyTitle
  obtain ⟨s, ss, hs⟩ :
      ∃ s ss, splitDash (pyReplaceUnderscore k).data = s :: ss := by
    cases hcs : splitDash (pyReplaceUnderscore k).data with
    | nil => exact absurd hcs (splitDash_ne_nil _)
    | cons a as => exact ⟨a, as, rfl⟩
  rw [hs, List.map_cons]
  rw [← pyTitleChars_splitDash _ false s ss hs]

/- ---------------------------------------------------------------- -/
/- TimingMiddleware step lemmas                                      -/
/- ---------------------------------------------------------------- -/

theorem tstep_other {m : Message} (c : Nat) (st : PyDict Nat)
    (h1 : m.type ≠ "http.request") (h2 : m.type ≠ "http.response.start") :
    TimingMiddleware.send_wrapper c st m = ⟨c, st, m⟩ := by
  simp [TimingMiddleware.send_wrapper, h1, h2]

theorem tstep_request {m : Message} (c : Nat) (st : PyDict Nat)
    (h : m.type = "http.request") :
    TimingMiddleware.send_wrapper c st m =
      ⟨c + 1, dictSet st "receive_time" c, m⟩ := by
  have h2 : m.type ≠ "http.response.start" := by rw [h]; decide
  simp [TimingMiddleware.send_wrapper, h, h2]

theorem tstep_respond {m : Message} (c : Nat) (st : PyDict Nat)
    (h : m.type = "http.response.start") :
    TimingMiddleware.send_wrapper c st m =
      ⟨c + 1, dictSet st "respond_time" c,
        { m with headers := mutableHeadersUpdate m.headers (map_state_to_headers (fun v : Nat => toString v) (dictSet st "respond_time" c)) }⟩ := by
  have h1 : m.type ≠ "http.request" := by rw [h]; decide
  simp [TimingMiddleware.send_wrapper, h, h1]

theorem tstep_basic (c : Nat) (st : PyDict Nat) (m : Message) :
    TRelBasic m (TimingMiddleware.send_wrapper c st m).msg := by
  by_cases h2 : m.type = "http.response.start"
  · rw [tstep_respond c st h2]
    exact ⟨rfl, rfl, rfl, rfl, fun hne => absurd h2 hne⟩
  · by_cases h1 : m.type = "http.request"
    · rw [tstep_request c st h1]
      exact ⟨rfl, rfl, rfl, rfl, fun _ => rfl⟩
    · rw [tstep_other c st h1 h2]
      exact ⟨rfl, rfl, rfl, rfl, fun _ => rfl⟩

theorem dictSet_keysOK {st : PyDict Nat} {k : String} {v : Nat}
    (h : KeysOK st)
    (hk : k = "start_time" ∨ k = "receive_time" ∨ k = "respond_time") :
    KeysOK (dictSet st k v) := by
  intro kv hkv
  rcases dictSet_mem hkv with h' | h'
  · rw [h']
    exact hk
  · exact h kv h'

theorem tstep_keysOK {st : PyDict Nat} (c : Nat) (m : Message) (h : KeysOK st) :
    KeysOK (TimingMiddleware.send_wrapper c st m).state := by
  by_cases h2 : m.type = "http.response.start"
  · rw [tstep_respond c st h2]
    exact dictSet_keysOK h (Or.inr (Or.inr rfl))
  · by_cases h1 : m.type = "http.request"
    · rw [tstep_request c st h1]
      exact dictSet_keysOK h (Or.inr (Or.inl rfl))
    · rw [tstep_other c st h1 h2]
      exact h

theorem tstep_endtime {st : PyDict Nat} (c : Nat) (m : Message) (h : KeysOK st) :
    NoNewEndTime m (TimingMiddleware.send_wrapper c st m).msg := by
  by_cases h2 : m.type = "http.response.start"
  · rw [tstep_respond c st h2]
    intro p hp hlow
    rcases mutableHeadersUpdate_src hp with h' | ⟨kv, hkv, hp1⟩
    · exact h'
    · exfalso
      rcases map_state_to_headers_mem_src hkv with ⟨kv0, hkv0, hkey⟩
      have hkeys := dictSet_keysOK h (Or.inr (Or.inr rfl)) kv0 hkv0
      rw [hp1, hkey] at hlow
      rcases hkeys with hk | hk | hk <;> rw [hk] at hlow <;>
        revert hlow <;> decide
  · by_cases h1 : m.type = "http.request"
    · rw [tstep_request c st h1]
      intro p hp _
      exact hp
    · rw [tstep_other c st h1 h2]
      intro p hp _
      exact hp

theorem tstep_inv {t0 : Nat} {st : PyDict Nat} {c : Nat} (m : Message)
    (h : TInv t0 st c) :
    TInv t0 (TimingMiddleware.send_wrapper c st m).state
      (TimingMiddleware.send_wrapper c st m).clock ∧
    c ≤ (TimingMiddleware.send_wrapper c st m).clock := by
  obtain ⟨hstart, ht0, hrecv, hkeys, hnodup⟩ := h
  by_cases h2 : m.type = "http.response.start"
  · rw [tstep_respond c st h2]
    dsimp only
    refine ⟨⟨?_, ?_, ?_, ?_, ?_⟩, ?_⟩
    · rw [dictGet_dictSet_ne _ _ (by decide)]
      exact hstart
    · omega
    · intro r hr
      rw [dictGet_dictSet_ne _ _ (by decide)] at hr
      have := hrecv r hr
      omega
    · exact dictSet_keysOK hkeys (Or.inr (Or.inr rfl))
    · exact keysNodup_dictSet _ _ hnodup
    · omega
  · by_cases h1 : m.type = "http.request"
    · rw [tstep_request c st h1]
      dsimp only
      refine ⟨⟨?_, ?_, ?_, ?_, ?_⟩, ?_⟩
      · rw [dictGet_dictSet_ne _ _ (by decide)]
        exact hstart
      · omega
      · intro r hr
        rw [dictGet_dictSet_self] at hr
        have : c = r := by injection hr
        omega
      · exact dictSet_keysOK hkeys (Or.inr (Or.inl rfl))
      · exact keysNodup_dictSet _ _ hnodup
      · omega
    · rw [tstep_other c st h1 h2]
      exact ⟨⟨hstart, ht0, hrecv, hkeys, hnodup⟩, le_refl c⟩

theorem tstep_recv {st : PyDict Nat} (c : Nat) (m : Message)
    (h : (dictGet st "receive_time").isSome) :
    (dictGet (TimingMiddleware.send_wrapper c st m).state "receive_time").isSome := by
  by_cases h2 : m.type = "http.response.start"
  · rw [tstep_respond c st h2]
    rw [dictGet_dictSet_ne _ _ (by decide)]
    exact h
  · by_cases h1 : m.type = "http.request"
    · rw [tstep_request c st h1, dictGet_dictSet_self]
      simp
    · rw [tstep_other c st h1 h2]
      exact h

theorem tstep_recv_set {st : PyDict Nat} (c : Nat) {m : Message}
    (h : m.type = "http.request") :
    (dictGet (TimingMiddleware.send_wrapper c st m).state "receive_time").isSome := by
  rw [tstep_request c st h, dictGet_dictSet_self]
  simp

/- ---------------------------------------------------------------- -/
/- timingProcess lemmas                                              -/
/- ---------------------------------------------------------------- -/

theorem timingProcess_nil (c : Nat) (st : PyDict Nat) :
    timingProcess c st [] = ⟨c, st, []⟩ := rfl

theorem timingProcess_cons (c : Nat) (st : PyDict Nat) (m : Message)
    (ms : List Message) :
    timingProcess c st (m :: ms) =
      ⟨(timingProcess (TimingMiddleware.send_wrapper c st m).clock
          (TimingMiddleware.send_wrapper c st m).state ms).clock,
        (timingProcess (TimingMiddleware.send_wrapper c st m).clock
          (TimingMiddleware.send_wrapper c st m).state ms).state,
        (TimingMiddleware.send_wrapper c st m).msg ::
          (timingProcess (TimingMiddleware.send_wrapper c st m).clock
            (TimingMiddleware.send_wrapper c st m).state ms).sent⟩ := rfl

theorem timingProcess_length (c : Nat) (st : PyDict Nat) (ms : List Message) :
    (timingProcess c st ms).sent.length = ms.length := by
  induction ms generalizing c st with
  | nil => rfl
  | cons m ms ih =>
    rw [timingProcess_cons]
    simp only [List.length_cons]
    rw [ih]

theorem timingProcess_forall_basic (c : Nat) (st : PyDict Nat)
    (ms : List Message) :
    List.Forall₂ TRelBasic ms (timingProcess c st ms).sent := by
  induction ms generalizing c st with
  | nil => exact List.Forall₂.nil
  | cons m ms ih =>
    rw [timingProcess_cons]
    exact List.Forall₂.cons (tstep_basic c st m) (ih _ _)

theorem timingProcess_forall_endtime (c : Nat) {st : PyDict Nat}
    (ms : List Message) (h : KeysOK st) :
    List.Forall₂ NoNewEndTime ms (timingProcess c st ms).sent := by
  induction ms generalizing c st with
  | nil => exact List.Forall₂.nil
  | cons m ms ih =>
    rw [timingProcess_cons]
    exact List.Forall₂.cons (tstep_endtime c m h) (ih _ (tstep_keysOK c m h))

theorem timingProcess_inv {t0 : Nat} {st : PyDict Nat} {c : Nat}
    (ms : List Message) (h : TInv t0 st c) :
    TInv t0 (timingProcess c st ms).state (timingProcess c st ms).clock := by
  induction ms generalizing c st with
  | nil => exact h
  | cons m ms ih =>
    rw [timingProcess_cons]
    exact ih ((tstep_inv m h).1)

theorem timingProcess_recv_mono (c : Nat) {st : PyDict Nat} (ms : List Message)
    (h : (dictGet st "receive_time").isSome) :
    (dictGet (timingProcess c st ms).state "receive_time").isSome := by
  induction ms generalizing c st with
  | nil => exact h
  | cons m ms ih =>
    rw [timingProcess_cons]
    exact ih _ (tstep_recv c m h)

theorem timingProcess_recv_of_mem (c : Nat) {st : PyDict Nat}
    {ms : List Message} (h : ∃ q ∈ ms, q.type = "http.request") :
    (dictGet (timingProcess c st ms).state "receive_time").isSome := by
  induction ms generalizing c st with
  | nil => simp at h
  | cons m ms ih =>
    rw [timingProcess_cons]
    rcases h with ⟨q, hq, hqt⟩
    rcases List.mem_cons.mp hq with rfl | hq'
    · exact timingProcess_recv_mono _ ms (tstep_recv_set c hqt)
    · exact ih _ ⟨q, hq', hqt⟩

theorem timingProcess_append (c : Nat) (st : PyDict Nat)
    (xs ys : List Message) :
    timingProcess c st (xs ++ ys) =
      ⟨(timingProcess (timingProcess c st xs).clock
          (timingProcess c st xs).state ys).clock,
        (timingProcess (timingProcess c st xs).clock
          (timingProcess c st xs).state ys).state,
        (timingProcess c st xs).sent ++
          (timingProcess (timingProcess c st xs).clock
            (timingProcess c st xs).state ys).sent⟩ := by
  induction xs generalizing c st with
  | nil => simp [timingProcess_nil]
  | cons m ms ih =>
    simp only [List.cons_append, timingProcess_cons, ih]

theorem forall2_get {R : Message → Message → Prop} {l1 l2 : List Message}
    (h : List.Forall₂ R l1 l2) :
    ∀ (i : Nat) (x y : Message), l1.get? i = some x → l2.get? i = some y →
      R x y := by
  induction h with
  | nil =>
    intro i x y h1 _
    simp at h1
  | cons hr _ ih =>
    intro i x y h1 h2
    cases i with
    | zero =>
      simp only [List.get?] at h1 h2
      cases h1
      cases h2
      exact hr
    | succ n =>
      simp only [List.get?] at h1 h2
      exact ih n x y h1 h2

/- ---------------------------------------------------------------- -/
/- Injected Timing headers at an http.response.start event           -/
/- ---------------------------------------------------------------- -/

theorem three_key_inj {x y : String}
    (hx : x = "start_time" ∨ x = "receive_time" ∨ x = "respond_time")
    (hy : y = "start_time" ∨ y = "receive_time" ∨ y = "respond_time")
    (hxy : pyLower (headerKey x) = pyLower (headerKey y)) : x = y := by
  rcases hx with rfl | rfl | rfl <;> rcases hy with rfl | rfl | rfl <;>
    first
      | rfl
      | exact absurd hxy (by decide)

theorem tstep_respond_headers {t0 : Nat} {st : PyDict Nat} {c : Nat}
    {m : Message} (hinv : TInv t0 st c) (h : m.type = "http.response.start") :
    ("x-bug-start-time", toString t0) ∈
        (TimingMiddleware.send_wrapper c st m).msg.headers ∧
      ("x-bug-respond-time", toString c) ∈
        (TimingMiddleware.send_wrapper c st m).msg.headers ∧
      ∀ r, dictGet st "receive_time" = some r →
        ("x-bug-receive-time", toString r) ∈
          (TimingMiddleware.send_wrapper c st m).msg.headers := by
  obtain ⟨hstart, ht0, hrecv, hkeys, hnodup⟩ := hinv
  rw [tstep_respond c st h]
  dsimp only
  set st2 := dictSet st "respond_time" c with hst2
  have hkeys2 : KeysOK st2 := dictSet_keysOK hkeys (Or.inr (Or.inr rfl))
  have hnodup2 : (st2.map Prod.fst).Nodup := keysNodup_dictSet _ _ hnodup
  have htrans : (st2.map (fun kv => headerKey kv.1)).Nodup := by
    have hcomp : st2.map (fun kv => headerKey kv.1) =
        (st2.map Prod.fst).map headerKey := by
      rw [List.map_map]
      rfl
    rw [hcomp]
    refine List.Nodup.map_on ?_ hnodup2
    intro x hx y hy hxy
    rcases List.mem_map.mp hx with ⟨kvx, hkvx, rfl⟩
    rcases List.mem_map.mp hy with ⟨kvy, hkvy, rfl⟩
    exact three_key_inj (hkeys2 kvx hkvx) (hkeys2 kvy hkvy)
      (congrArg pyLower hxy)
  have hmsh : map_state_to_headers (fun v : Nat => toString v) st2 =
      st2.map (fun kv => (headerKey kv.1, toString kv.2)) :=
    map_state_to_headers_eq_map _ _ htrans
  have hlnodup : ((map_state_to_headers (fun v : Nat => toString v) st2).map
      (fun q => pyLower q.1)).Nodup := by
    rw [hmsh, List.map_map]
    have hcomp : ((fun q : String × String => pyLower q.1) ∘
        fun kv : String × Nat => (headerKey kv.1, toString kv.2)) =
        (fun x => pyLower (headerKey x)) ∘ Prod.fst := rfl
    rw [hcomp, ← List.map_map]
    refine List.Nodup.map_on ?_ hnodup2
    intro x hx y hy hxy
    rcases List.mem_map.mp hx with ⟨kvx, hkvx, rfl⟩
    rcases List.mem_map.mp hy with ⟨kvy, hkvy, rfl⟩
    exact three_key_inj (hkeys2 kvx hkvx) (hkeys2 kvy hkvy) hxy
  refine ⟨?_, ?_, ?_⟩
  · have hmem : ("start_time", t0) ∈ st2 := by
      apply dictGet_mem
      rw [hst2, dictGet_dictSet_ne _ _ (by decide)]
      exact hstart
    have h1 : (headerKey "start_time", toString t0) ∈
        map_state_to_headers (fun v : Nat => toString v) st2 := by
      rw [hmsh]
      exact List.mem_map_of_mem _ hmem
    have h2 := mutableHeadersUpdate_mem_of m.headers h1 hlnodup
    dsimp only at h2
    rw [show pyLower (headerKey "start_time") = "x-bug-start-time" from by decide]
      at h2
    exact h2
  · have hmem : ("respond_time", c) ∈ st2 := by
      apply dictGet_mem
      rw [hst2, dictGet_dictSet_self]
    have h1 : (headerKey "respond_time", toString c) ∈
        map_state_to_headers (fun v : Nat => toString v) st2 := by
      rw [hmsh]
      exact List.mem_map_of_mem _ hmem
    have h2 := mutableHeadersUpdate_mem_of m.headers h1 hlnodup
    dsimp only at h2
    rw [show pyLower (headerKey "respond_time") = "x-bug-respond-time" from
      by decide] at h2
    exact h2
  · intro r hr
    have hmem : ("receive_time", r) ∈ st2 := by
      apply dictGet_mem
      rw [hst2, dictGet_dictSet_ne _ _ (by decide)]
      exact hr
    have h1 : (headerKey "receive_time", toString r) ∈
        map_state_to_headers (fun v : Nat => toString v) st2 := by
      rw [hmsh]
      exact List.mem_map_of_mem _ hmem
    have h2 := mutableHeadersUpdate_mem_of m.headers h1 hlnodup
    dsimp only at h2
    rw [show pyLower (headerKey "receive_time") = "x-bug-receive-time" from
      by decide] at h2
    exact h2

/- ---------------------------------------------------------------- -/
/- QueryLoggerMiddleware step lemmas                                 -/
/- ---------------------------------------------------------------- -/

theorem qstep_other {m : Message} (jl : String → Option JsonValue)
    (st : PyDict JsonValue)
    (h1 : m.type ≠ "http.request") (h2 : m.type ≠ "http.response.body") :
    QueryLoggerMiddleware.send_wrapper jl m st =
      ([LogRecord.queryEvent m], Except.ok (st, m)) := by
  simp [QueryLoggerMiddleware.send_wrapper, h1, h2]

theorem qstep_request {m : Message} (jl : String → Option JsonValue)
    (st : PyDict JsonValue) (text : String) (h : m.type = "http.request")
    (hd : QueryLoggerMiddleware.clean_data m.body = some text) :
    QueryLoggerMiddleware.send_wrapper jl m st =
      ([LogRecord.queryEvent m],
        Except.ok (dictSet st "request_data" (fallbackDecode jl text), m)) := by
  have h2 : m.type ≠ "http.response.body" := by rw [h]; decide
  simp [QueryLoggerMiddleware.send_wrapper, h, h2, hd]

theorem qstep_request_err {m : Message} (jl : String → Option JsonValue)
    (st : PyDict JsonValue) (h : m.type = "http.request")
    (hd : QueryLoggerMiddleware.clean_data m.body = none) :
    QueryLoggerMiddleware.send_wrapper jl m st =
      ([LogRecord.queryEvent m],
        Except.error (PyExc.unicodeDecodeError m.body)) := by
  simp [QueryLoggerMiddleware.send_wrapper, h, hd]

theorem qstep_respbody {m : Message} (jl : String → Option JsonValue)
    (st : PyDict JsonValue) (text : String)
    (h : m.type = "http.response.body")
    (hd : QueryLoggerMiddleware.clean_data m.body = some text) :
    QueryLoggerMiddleware.send_wrapper jl m st =
      ([LogRecord.queryEvent m],
        Except.ok
          ((if jsonTruthy (fallbackDecode jl text) &&
                !pyEqDoneStr (fallbackDecode jl text)
            then dictSet st "response_data" (fallbackDecode jl text)
            else st), m)) := by
  have h1 : m.type ≠ "http.request" := by rw [h]; decide
  by_cases hc : jsonTruthy (fallbackDecode jl text) = true ∧
      pyEqDoneStr (fallbackDecode jl text) = false
  · simp [QueryLoggerMiddleware.send_wrapper, h, h1, hd, hc]
  · simp [QueryLoggerMiddleware.send_wrapper, h, h1, hd, hc]

theorem qstep_respbody_err {m : Message} (jl : String → Option JsonValue)
    (st : PyDict JsonValue) (h : m.type = "http.response.body")
    (hd : QueryLoggerMiddleware.clean_data m.body = none) :
    QueryLoggerMiddleware.send_wrapper jl m st =
      ([LogRecord.queryEvent m],
        Except.error (PyExc.unicodeDecodeError m.body)) := by
  have h1 : m.type ≠ "http.request" := by rw [h]; decide
  simp [QueryLoggerMiddleware.send_wrapper, h, h1, hd]

theorem qstep_ok_msg {jl : String → Option JsonValue} {m : Message}
    {st : PyDict JsonValue} {logs : List LogRecord} {st1 : PyDict JsonValue}
    {m1 : Message}
    (h : QueryLoggerMiddleware.send_wrapper jl m st = (logs, Except.ok (st1, m1))) :
    m1 = m ∧ logs = [LogRecord.queryEvent m] := by
  by_cases h1 : m.type = "http.request"
  · cases hd : QueryLoggerMiddleware.clean_data m.body with
    | none =>
      rw [qstep_request_err jl st h1 hd] at h
      exact absurd (congrArg Prod.snd h) (by simp)
    | some text =>
      rw [qstep_request jl st text h1 hd] at h
      have h2 := congrArg Prod.snd h
      have h3 := congrArg Prod.fst h
      simp only [Except.ok.injEq, Prod.mk.injEq] at h2 h3
      exact ⟨h2.2.symm, h3.symm⟩
  · by_cases hb : m.type = "http.response.body"
    · cases hd : QueryLoggerMiddleware.clean_data m.body with
      | none =>
        rw [qstep_respbody_err jl st hb hd] at h
        exact absurd (congrArg Prod.snd h) (by simp)
      | some text =>
        rw [qstep_respbody jl st text hb hd] at h
        have h2 := congrArg Prod.snd h
        have h3 := congrArg Prod.fst h
        simp only [Except.ok.injEq, Prod.mk.injEq] at h2 h3
        exact ⟨h2.2.symm, h3.symm⟩
    · rw [qstep_other jl st h1 hb] at h
      have h2 := congrArg Prod.snd h
      have h3 := congrArg Prod.fst h
      simp only [Except.ok.injEq, Prod.mk.injEq] at h2 h3
      exact ⟨h2.2.symm, h3.symm⟩

theorem qstep_logs (jl : String → Option JsonValue) (m : Message)
    (st : PyDict JsonValue) :
    (QueryLoggerMiddleware.send_wrapper jl m st).1 =
      [LogRecord.queryEvent m] := by
  by_cases h1 : m.type = "http.request"
  · cases hd : QueryLoggerMiddleware.clean_data m.body with
    | none => rw [qstep_request_err jl st h1 hd]
    | some text => rw [qstep_request jl st text h1 hd]
  · by_cases hb : m.type = "http.response.body"
    · cases hd : QueryLoggerMiddleware.clean_data m.body with
      | none => rw [qstep_respbody_err jl st hb hd]
      | some text => rw [qstep_respbody jl st text hb hd]
    · rw [qstep_other jl st h1 hb]

/- ---------------------------------------------------------------- -/
/- queryProcess lemmas                                               -/
/- ---------------------------------------------------------------- -/

theorem queryProcess_nil (jl : String → Option JsonValue)
    (st : PyDict JsonValue) : queryProcess jl [] st = ⟨st, [], [], none⟩ := rfl

theorem queryProcess_cons_err {jl : String → Option JsonValue} {m : Message}
    {st : PyDict JsonValue} {logs : List LogRecord} {e : PyExc}
    (h : QueryLoggerMiddleware.send_wrapper jl m st = (logs, Except.error e))
    (ms : List Message) :
    queryProcess jl (m :: ms) st = ⟨st, [], logs, some e⟩ := by
  simp [queryProcess, h]

theorem queryProcess_cons_ok {jl : String → Option JsonValue} {m : Message}
    {st : PyDict JsonValue} {logs : List LogRecord} {st1 : PyDict JsonValue}
    {m1 : Message}
    (h : QueryLoggerMiddleware.send_wrapper jl m st = (logs, Except.ok (st1, m1)))
    (ms : List Message) :
    queryProcess jl (m :: ms) st =
      ⟨(queryProcess jl ms st1).state, m1 :: (queryProcess jl ms st1).sent,
        logs ++ (queryProcess jl ms st1).logs, (queryProcess jl ms st1).err⟩ := by
  simp [queryProcess, h]

theorem queryProcess_noerr {jl : String → Option JsonValue} {ms : List Message} :
    ∀ {st : PyDict JsonValue}, (queryProcess jl ms st).err = none →
      (queryProcess jl ms st).sent = ms := by
  induction ms with
  | nil => intro st _; rfl
  | cons m ms ih =>
    intro st herr
    cases hr : QueryLoggerMiddleware.send_wrapper jl m st with
    | mk logs r2 =>
      cases r2 with
      | error e =>
        rw [queryProcess_cons_err hr ms] at herr
        simp at herr
      | ok p =>
        cases p with
        | mk st1 m1 =>
          rw [queryProcess_cons_ok hr ms] at herr ⊢
          dsimp only at herr ⊢
          rw [(qstep_ok_msg hr).1, ih herr]

theorem queryProcess_logs_noexit (jl : String → Option JsonValue)
    (ms : List Message) :
    ∀ st : PyDict JsonValue,
      ((queryProcess jl ms st).logs).countP (fun rec => rec.isExit) = 0 := by
  induction ms with
  | nil => intro st; rfl
  | cons m ms ih =>
    intro st
    cases hr : QueryLoggerMiddleware.send_wrapper jl m st with
    | mk logs r2 =>
      have hlogs : logs = [LogRecord.queryEvent m] := by
        have := qstep_logs jl m st
        rw [hr] at this
        exact this
      cases r2 with
      | error e =>
        rw [queryProcess_cons_err hr ms]
        dsimp only
        rw [hlogs]
        rfl
      | ok p =>
        cases p with
        | mk st1 m1 =>
          rw [queryProcess_cons_ok hr ms]
          dsimp only
          rw [hlogs, List.countP_append, ih st1]
          rfl

/- ---------------------------------------------------------------- -/
/- Run-level unfolding lemmas                                        -/
/- ---------------------------------------------------------------- -/

theorem timing_run_nonhttp {scope : Scope} (c : Nat) (app : AppRun)
    (h : scope.type ≠ "http") :
    TimingMiddleware.run c scope app = ⟨app.events, [], app.outcome⟩ := by
  simp [TimingMiddleware.run, h]

theorem query_run_nonhttp {scope : Scope} (jl : String → Option JsonValue)
    (app : AppRun) (h : scope.type ≠ "http") :
    QueryLoggerMiddleware.run jl scope app = ⟨app.events, [], app.outcome⟩ := by
  simp [QueryLoggerMiddleware.run, h]

theorem timing_run_http {scope : Scope} (c : Nat) (app : AppRun)
    (h : scope.type = "http") :
    TimingMiddleware.run c scope app =
      ⟨(timingProcess (c + 1) [("start_time", c)] app.events).sent,
        [LogRecord.timingExit scope.method scope.path
          (dictSet (timingProcess (c + 1) [("start_time", c)] app.events).state
            "end_time"
            (timingProcess (c + 1) [("start_time", c)] app.events).clock)],
        app.outcome⟩ := by
  simp [TimingMiddleware.run, h]

theorem query_run_http {scope : Scope} (jl : String → Option JsonValue)
    (app : AppRun) (h : scope.type = "http") :
    QueryLoggerMiddleware.run jl scope app =
      ⟨(queryProcess jl app.events []).sent,
        (queryProcess jl app.events []).logs ++
          [LogRecord.queryExit scope.method scope.path
            (dictGet (queryProcess jl app.events []).state "request_data")
            (dictGet (queryProcess jl app.events []).state "response_data")],
        match (queryProcess jl app.events []).err with
        | some e => some e
        | none => app.outcome⟩ := by
  simp [QueryLoggerMiddleware.run, h]

/- ---------------------------------------------------------------- -/
/- Claim theorems                                                    -/
/- ---------------------------------------------------------------- -/

/-- C4: `map_state_to_headers` returns the mapping whose keys are the input
keys transformed by replacing every underscore with a hyphen, title-casing
each hyphen-separated segment, and prefixing with `X-Bug-`, and whose values
are the `str()`-converted input values (`spec_map_state_to_headers` states
exactly that transform).  Being a Lean function of its input, it is
deterministic and pure.  Stated for inputs whose transformed keys are
pairwise distinct, so that the dict comprehension keeps every entry. -/
theorem C4_map_state_to_headers_follows_spec {α : Type} (pyStr : α → String)
    (st : PyDict α)
    (hnodup : (st.map (fun kv => headerKey kv.1)).Nodup) :
    map_state_to_headers pyStr st = spec_map_state_to_headers pyStr st := by
  rw [map_state_to_headers_eq_map pyStr st hnodup]
  simp only [spec_map_state_to_headers, specHeaderKey_eq_headerKey]

/-- C4 witness: the transform evaluated on a concrete two-key state. -/
theorem C4_witness :
    (([("start_time", (5 : Nat)), ("request_data", 7)].map
        (fun kv => headerKey kv.1)).Nodup) ∧
    map_state_to_headers (fun n : Nat => toString n)
        [("start_time", 5), ("request_data", 7)] =
      spec_map_state_to_headers (fun n : Nat => toString n)
        [("start_time", 5), ("request_data", 7)] :=
  ⟨by decide, C4_map_state_to_headers_follows_spec _ _ (by decide)⟩

/-- C9: for every scope whose type is not "http", both middlewares delegate
to the downstream application unchanged: the real send receives exactly the
app's messages, no log record is emitted, no state or interceptor is
involved, and the app's outcome (return or raise) is passed through. -/
theorem C9_nonhttp_passthrough (c : Nat) (jl : String → Option JsonValue)
    (scope : Scope) (app : AppRun) (h : scope.type ≠ "http") :
    TimingMiddleware.run c scope app = ⟨app.events, [], app.outcome⟩ ∧
      QueryLoggerMiddleware.run jl scope app = ⟨app.events, [], app.outcome⟩ :=
  ⟨timing_run_nonhttp c app h, query_run_nonhttp jl app h⟩

/-- C9 witness: a websocket scope with a raising app passes through both
middlewares untouched. -/
theorem C9_witness :
    (({ type := "websocket", method := "GET", path := "/" } : Scope).type ≠
        "http") ∧
    TimingMiddleware.run 0 { type := "websocket", method := "GET", path := "/" }
        { events := [{ type := "websocket.send" }],
          outcome := some (PyExc.exc "boom") } =
      ⟨[{ type := "websocket.send" }], [], some (PyExc.exc "boom")⟩ ∧
    QueryLoggerMiddleware.run jsonLoadsFrag
        { type := "websocket", method := "GET", path := "/" }
        { events := [{ type := "websocket.send" }],
          outcome := some (PyExc.exc "boom") } =
      ⟨[{ type := "websocket.send" }], [], some (PyExc.exc "boom")⟩ := by
  refine ⟨by decide, ?_, ?_⟩
  · exact (C9_nonhttp_passthrough 0 jsonLoadsFrag _ _ (by decide)).1
  · exact (C9_nonhttp_passthrough 0 jsonLoadsFrag _ _ (by decide)).2

/-- C2: for every HTTP-scoped request, exactly one exit log record is
emitted — never zero and never two — whether the downstream application
returns normally or raises, for both middlewares (QueryLogger's per-event
records are not exit records). -/
theorem C2_exactly_one_exit_record (c : Nat) (jl : String → Option JsonValue)
    (scope : Scope) (app : AppRun) (h : scope.type = "http") :
    ((TimingMiddleware.run c scope app).logs).countP
        (fun rec => rec.isExit) = 1 ∧
      ((QueryLoggerMiddleware.run jl scope app).logs).countP
        (fun rec => rec.isExit) = 1 := by
  constructor
  · rw [timing_run_http c app h]
    rfl
  · rw [query_run_http jl app h]
    dsimp only
    rw [List.countP_append, queryProcess_logs_noexit jl app.events []]
    rfl

/-- C2 witness: a raising app under an http scope still yields exactly one
exit record in each middleware. -/
theorem C2_witness :
    (({ type := "http", method := "GET", path := "/" } : Scope).type =
        "http") ∧
    ((TimingMiddleware.run 0 { type := "http", method := "GET", path := "/" }
        { events := [{ type := "http.response.start", status := 500 }],
          outcome := some (PyExc.exc "boom") }).logs).countP
      (fun rec => rec.isExit) = 1 ∧
    ((QueryLoggerMiddleware.run jsonLoadsFrag
        { type := "http", method := "GET", path := "/" }
        { events := [{ type := "http.response.start", status := 500 }],
          outcome := some (PyExc.exc "boom") }).logs).countP
      (fun rec => rec.isExit) = 1 := by
  refine ⟨rfl, ?_, ?_⟩
  · exact (C2_exactly_one_exit_record 0 jsonLoadsFrag _ _ rfl).1
  · exact (C2_exactly_one_exit_record 0 jsonLoadsFrag _ _ rfl).2

/-- C3: for every HTTP-scoped request in which the downstream application
raises, each middleware re-raises that same error unchanged, and the exit
log record has been emitted (it is the last record); an error raised by
QueryLogger's own hook is likewise re-raised after the exit record — no
error is ever swallowed. -/
theorem C3_error_reraised_after_exit_log (c : Nat)
    (jl : String → Option JsonValue) (scope : Scope) (app : AppRun)
    (e : PyExc) (h : scope.type = "http") :
    (app.outcome = some e →
      (TimingMiddleware.run c scope app).result = some e ∧
      ∃ pre st, (TimingMiddleware.run c scope app).logs =
        pre ++ [LogRecord.timingExit scope.method scope.path st]) ∧
    (app.outcome = some e → (queryProcess jl app.events []).err = none →
      (QueryLoggerMiddleware.run jl scope app).result = some e ∧
      ∃ pre rd sd, (QueryLoggerMiddleware.run jl scope app).logs =
        pre ++ [LogRecord.queryExit scope.method scope.path rd sd]) ∧
    ((queryProcess jl app.events []).err = some e →
      (QueryLoggerMiddleware.run jl scope app).result = some e ∧
      ∃ pre rd sd, (QueryLoggerMiddleware.run jl scope app).logs =
        pre ++ [LogRecord.queryExit scope.method scope.path rd sd]) := by
  refine ⟨?_, ?_, ?_⟩
  · intro ho
    rw [timing_run_http c app h]
    exact ⟨ho, [], _, rfl⟩
  · intro ho herr
    rw [query_run_http jl app h]
    refine ⟨?_, (queryProcess jl app.events []).logs, _, _, rfl⟩
    dsimp only
    rw [herr]
    exact ho
  · intro herr
    rw [query_run_http jl app h]
    refine ⟨?_, (queryProcess jl app.events []).logs, _, _, rfl⟩
    dsimp only
    rw [herr]

/-- C3 witness: a concrete raising app; the error surfaces unchanged and the
exit record is emitted. -/
theorem C3_witness :
    ({ events := [{ type := "http.response.start", status := 500 }],
        outcome := some (PyExc.exc "boom") } : AppRun).outcome =
      some (PyExc.exc "boom") ∧
    (queryProcess jsonLoadsFrag
        [{ type := "http.response.start", status := 500 }] []).err = none ∧
    ((TimingMiddleware.run 7 { type := "http", method := "GET", path := "/" }
        { events := [{ type := "http.response.start", status := 500 }],
          outcome := some (PyExc.exc "boom") }).result =
        some (PyExc.exc "boom") ∧
      ∃ pre st,
        (TimingMiddleware.run 7 { type := "http", method := "GET", path := "/" }
          { events := [{ type := "http.response.start", status := 500 }],
            outcome := some (PyExc.exc "boom") }).logs =
        pre ++ [LogRecord.timingExit "GET" "/" st]) ∧
    ((QueryLoggerMiddleware.run jsonLoadsFrag
        { type := "http", method := "GET", path := "/" }
        { events := [{ type := "http.response.start", status := 500 }],
          outcome := some (PyExc.exc "boom") }).result =
        some (PyExc.exc "boom") ∧
      ∃ pre rd sd,
        (QueryLoggerMiddleware.run jsonLoadsFrag
          { type := "http", method := "GET", path := "/" }
          { events := [{ type := "http.response.start", status := 500 }],
            outcome := some (PyExc.exc "boom") }).logs =
        pre ++ [LogRecord.queryExit "GET" "/" rd sd]) := by
  have h := C3_error_reraised_after_exit_log 7 jsonLoadsFrag
    { type := "http", method := "GET", path := "/" }
    { events := [{ type := "http.response.start", status := 500 }],
      outcome := some (PyExc.exc "boom") } (PyExc.exc "boom") rfl
  exact ⟨rfl, by decide, h.1 rfl, h.2.1 rfl (by decide)⟩

/-- C1 counterexample: under QueryLoggerMiddleware, an http.request event
whose body is the single byte 0xFF (invalid UTF-8) is never forwarded: the
UnicodeDecodeError raised by `_clean_data` aborts the intercepted send
before the real send is reached, so "every event is forwarded to the real
send exactly once" is false as stated. -/
theorem C1_cx_decode_error_drops_event :
    (queryProcess jsonLoadsFrag
        [{ type := "http.request", body := [255] }] []).sent = [] ∧
    (queryProcess jsonLoadsFrag
        [{ type := "http.request", body := [255] }] []).err =
      some (PyExc.unicodeDecodeError [255]) :=
  ⟨by decide, by decide⟩

/-- C1 (amended): events are forwarded one-to-one in order — no reordering,
drops or duplicates — provided the hook raises no error.  For
TimingMiddleware this holds unconditionally: the i-th forwarded message is
the i-th received one (same type, status, body, more_body; only
response.start headers may differ).  For QueryLoggerMiddleware it holds
whenever processing raises no error (every decoded body is valid UTF-8);
a decode error stops forwarding from the failing event on and propagates. -/
theorem C1_events_forwarded_in_order (c : Nat) (st : PyDict Nat)
    (jl : String → Option JsonValue) (qst : PyDict JsonValue)
    (ms : List Message) :
    ((timingProcess c st ms).sent.length = ms.length ∧
      List.Forall₂ TRelBasic ms (timingProcess c st ms).sent) ∧
    ((queryProcess jl ms qst).err = none →
      (queryProcess jl ms qst).sent = ms) :=
  ⟨⟨timingProcess_length c st ms, timingProcess_forall_basic c st ms⟩,
    fun h => queryProcess_noerr h⟩

/-- C1 witness: a decodable request body is forwarded exactly as received. -/
theorem C1_witness :
    (queryProcess jsonLoadsFrag [{ type := "http.request", body := [48] }]
        ([] : PyDict JsonValue)).err = none ∧
    (queryProcess jsonLoadsFrag [{ type := "http.request", body := [48] }]
        ([] : PyDict JsonValue)).sent =
      [{ type := "http.request", body := [48] }] :=
  ⟨by decide,
    (C1_events_forwarded_in_order 1 [("start_time", 0)] jsonLoadsFrag []
      [{ type := "http.request", body := [48] }]).2 (by decide)⟩

/-- C10: QueryLoggerMiddleware's hook forwards the message with all fields
unmodified whenever it forwards at all, and TimingMiddleware's hook
modifies no field of any message except the headers of http.response.start
events: type, status, body and more_body are always forwarded as received,
and any event of another type is forwarded entirely unchanged. -/
theorem C10_send_wrapper_frame_effect (c : Nat) (st : PyDict Nat)
    (jl : String → Option JsonValue) (m : Message) :
    TRelBasic m (TimingMiddleware.send_wrapper c st m).msg ∧
    (∀ (qst st1 : PyDict JsonValue) (logs : List LogRecord) (m1 : Message),
      QueryLoggerMiddleware.send_wrapper jl m qst =
        (logs, Except.ok (st1, m1)) → m1 = m) :=
  ⟨tstep_basic c st m, fun _ _ _ _ h => (qstep_ok_msg h).1⟩

/-- C10 witness: a non-request, non-response event is forwarded untouched by
both hooks. -/
theorem C10_witness :
    TRelBasic { type := "lifespan.startup" }
      (TimingMiddleware.send_wrapper 0 [] { type := "lifespan.startup" }).msg ∧
    ({ type := "lifespan.startup" } : Message) =
      { type := "lifespan.startup" } := by
  have h := C10_send_wrapper_frame_effect 0 [] (fun _ => none)
    { type := "lifespan.startup" }
  exact ⟨h.1,
    h.2 [] [] [LogRecord.queryEvent { type := "lifespan.startup" }]
      { type := "lifespan.startup" } rfl⟩

/-- C7 counterexample: a decode failure is NOT recovered locally — for the
http.request body 0xFF (invalid UTF-8) the hook raises UnicodeDecodeError
to its caller, because `_clean_data`'s `.decode("utf-8")` runs outside the
`try:` that only catches `json.JSONDecodeError`. -/
theorem C7_cx_decode_error_raised :
    exceptErr (QueryLoggerMiddleware.send_wrapper jsonLoadsFrag
        { type := "http.request", body := [255] } []).2 =
      some (PyExc.unicodeDecodeError [255]) := by decide

/-- C7 (amended): for any http.request event whose body decodes as UTF-8,
after stripping the optional "data: " prefix and the surrounding whitespace,
the value stored as request_data is the parsed JSON value when the text
parses and the cleaned text itself otherwise — a JSON parse failure is
always recovered locally.  A UTF-8 decode failure, however, is not caught:
the hook raises UnicodeDecodeError to its caller. -/
theorem C7_request_data_decoding (jl : String → Option JsonValue)
    (st : PyDict JsonValue) (m : Message) (s : String)
    (hm : m.type = "http.request") :
    (utf8Decode m.body = some s →
      QueryLoggerMiddleware.send_wrapper jl m st =
        ([LogRecord.queryEvent m],
          Except.ok (dictSet st "request_data"
            (fallbackDecode jl (pyStrip (pyRemovePfx s "data: "))), m))) ∧
    (utf8Decode m.body = none →
      QueryLoggerMiddleware.send_wrapper jl m st =
        ([LogRecord.queryEvent m],
          Except.error (PyExc.unicodeDecodeError m.body))) := by
  constructor
  · intro hd
    have hcd : QueryLoggerMiddleware.clean_data m.body =
        some (pyStrip (pyRemovePfx s "data: ")) := by
      unfold QueryLoggerMiddleware.clean_data
      rw [hd]
      rfl
    exact qstep_request jl st _ hm hcd
  · intro hd
    have hcd : QueryLoggerMiddleware.clean_data m.body = none := by
      unfold QueryLoggerMiddleware.clean_data
      rw [hd]
      rfl
    exact qstep_request_err jl st hm hcd

/-- C7 witness: the body bytes "0" decode, parse as JSON 0 and are stored
parsed. -/
theorem C7_witness :
    (({ type := "http.request", body := [48] } : Message).type =
        "http.request") ∧
    utf8Decode [48] = some "0" ∧
    QueryLoggerMiddleware.send_wrapper jsonLoadsFrag
        { type := "http.request", body := [48] } [] =
      ([LogRecord.queryEvent { type := "http.request", body := [48] }],
        Except.ok (dictSet [] "request_data"
          (fallbackDecode jsonLoadsFrag (pyStrip (pyRemovePfx "0" "data: "))),
          { type := "http.request", body := [48] })) :=
  ⟨rfl, by decide,
    (C7_request_data_decoding jsonLoadsFrag [] _ "0" rfl).1 (by decide)⟩

/-- C8 counterexample: the response body "0" — whose decoded text is neither
empty nor the sentinel "[DONE]" — parses to the JSON number 0, which is
falsy in Python, so the guard `if response_data and ...` does NOT store it:
response_data stays unpopulated although the claim says it is stored. -/
theorem C8_cx_falsy_value_not_stored :
    pyStrip (pyRemovePfx "0" "data: ") ≠ "" ∧
    pyStrip (pyRemovePfx "0" "data: ") ≠ "[DONE]" ∧
    ((exceptOk (QueryLoggerMiddleware.send_wrapper jsonLoadsFrag
        { type := "http.response.body", body := [48] } []).2).map
      (fun p => (dictGet p.1 "response_data").isNone)) = some true :=
  ⟨by decide, by decide, by decide⟩

/-- C8 (amended): for an http.response.body event whose body decodes, with
cleaned text t and value v (parsed JSON if t parses, else t itself), the
event populates response_data with v exactly when v is Python-truthy and v
is not the string "[DONE]"; otherwise — including empty text, the literal
sentinel "[DONE]", and falsy parsed values such as 0, false, null, empty
array or empty object — the state is left unchanged by the event. -/
theorem C8_response_data_guard (jl : String → Option JsonValue)
    (st : PyDict JsonValue) (m : Message) (s : String)
    (hm : m.type = "http.response.body") (hd : utf8Decode m.body = some s) :
    QueryLoggerMiddleware.send_wrapper jl m st =
      ([LogRecord.queryEvent m],
        Except.ok
          ((if jsonTruthy (fallbackDecode jl (pyStrip (pyRemovePfx s "data: "))) &&
                !pyEqDoneStr (fallbackDecode jl (pyStrip (pyRemovePfx s "data: ")))
            then dictSet st "response_data"
              (fallbackDecode jl (pyStrip (pyRemovePfx s "data: ")))
            else st), m)) := by
  have hcd : QueryLoggerMiddleware.clean_data m.body =
      some (pyStrip (pyRemovePfx s "data: ")) := by
    unfold QueryLoggerMiddleware.clean_data
    rw [hd]
    rfl
  exact qstep_respbody jl st _ hm hcd

/-- C8 witness: the truthy response body "12" is stored parsed. -/
theorem C8_witness :
    (({ type := "http.response.body", body := [49, 50] } : Message).type =
        "http.response.body") ∧
    utf8Decode [49, 50] = some "12" ∧
    QueryLoggerMiddleware.send_wrapper jsonLoadsFrag
        { type := "http.response.body", body := [49, 50] } [] =
      ([LogRecord.queryEvent { type := "http.response.body", body := [49, 50] }],
        Except.ok
          ((if jsonTruthy (fallbackDecode jsonLoadsFrag
                (pyStrip (pyRemovePfx "12" "data: "))) &&
              !pyEqDoneStr (fallbackDecode jsonLoadsFrag
                (pyStrip (pyRemovePfx "12" "data: ")))
            then dictSet [] "response_data"
              (fallbackDecode jsonLoadsFrag
                (pyStrip (pyRemovePfx "12" "data: ")))
            else []),
          { type := "http.response.body", body := [49, 50] })) :=
  ⟨rfl, by decide,
    C8_response_data_guard jsonLoadsFrag [] _ "12" rfl (by decide)⟩

/-- C5 counterexample: a request whose outbound sequence reaches
http.response.start without any http.request message having passed through
the intercepted send gets no X-Bug-Receive-Time header (receive_time is
recorded only when an "http.request" message flows through the send
wrapper), although X-Bug-Start-Time is present — so the claim fails as
stated. -/
theorem C5_cx_no_receive_time_header :
    ((TimingMiddleware.run 0 { type := "http", method := "GET", path := "/" }
        { events := [{ type := "http.response.start", status := 200 }],
          outcome := none }).sent.get? 0).map
      (fun m => (m.headers.all (fun p => pyLower p.1 != "x-bug-receive-time"),
        m.headers.any (fun p => pyLower p.1 == "x-bug-start-time"))) =
      some (true, true) := by decide

/-- C5 (amended): for every HTTP request handled by TimingMiddleware whose
outbound sequence reaches an http.response.start event, the forwarded
response.start event carries X-Bug-Start-Time (the entry tick as a decimal
numeral string) and X-Bug-Respond-Time; X-Bug-Receive-Time is carried when
some http.request message passed through the intercepted send earlier in
the sequence, and then start_time ≤ receive_time ≤ respond_time holds under
the monotonic clock. -/
theorem C5_response_start_headers (c : Nat) (scope : Scope) (app : AppRun)
    (pre : List Message) (m : Message) (post : List Message)
    (hscope : scope.type = "http")
    (hev : app.events = pre ++ m :: post)
    (hm : m.type = "http.response.start")
    (hreq : ∃ q ∈ pre, q.type = "http.request") :
    ∃ m' r p,
      (TimingMiddleware.run c scope app).sent.get? pre.length = some m' ∧
      ("x-bug-start-time", toString c) ∈ m'.headers ∧
      ("x-bug-receive-time", toString r) ∈ m'.headers ∧
      ("x-bug-respond-time", toString p) ∈ m'.headers ∧
      c ≤ r ∧ r ≤ p := by
  rw [timing_run_http c app hscope]
  dsimp only
  rw [hev, timingProcess_append]
  dsimp only
  set procPre := timingProcess (c + 1) [("start_time", c)] pre with hprocPre
  have hinit : TInv c [("start_time", c)] (c + 1) := by
    refine ⟨rfl, Nat.lt_succ_self c, ?_, ?_, ?_⟩
    · intro r hr
      have hnone : dictGet [("start_time", c)] "receive_time" =
          (none : Option Nat) := rfl
      rw [hnone] at hr
      simp at hr
    · intro kv hkv
      rcases List.mem_singleton.mp hkv with rfl
      exact Or.inl rfl
    · simp
  have hinv : TInv c procPre.state procPre.clock := timingProcess_inv pre hinit
  have hrecv : (dictGet procPre.state "receive_time").isSome :=
    timingProcess_recv_of_mem (c + 1) hreq
  obtain ⟨r, hr⟩ := Option.isSome_iff_exists.mp hrecv
  rw [timingProcess_cons]
  dsimp only
  have hlen : procPre.sent.length = pre.length := timingProcess_length _ _ _
  have hget : (procPre.sent ++
      (TimingMiddleware.send_wrapper procPre.clock procPre.state m).msg ::
        (timingProcess
          (TimingMiddleware.send_wrapper procPre.clock procPre.state m).clock
          (TimingMiddleware.send_wrapper procPre.clock procPre.state m).state
          post).sent).get? pre.length =
      some (TimingMiddleware.send_wrapper procPre.clock procPre.state m).msg := by
    rw [← hlen, List.get?_append_right (le_refl _)]
    simp
  obtain ⟨hs, hp, hrc⟩ := tstep_respond_headers hinv hm
  exact ⟨_, r, procPre.clock, hget, hs, hrc r hr, hp,
    le_of_lt (hinv.2.2.1 r hr).1, le_of_lt (hinv.2.2.1 r hr).2⟩

/-- C5 witness: the canonical scenario — a request event, then
response.start — carries all three headers with ordered tick values. -/
theorem C5_witness :
    (({ type := "http", method := "GET", path := "/" } : Scope).type =
        "http") ∧
    (({ events := [{ type := "http.request" },
          { type := "http.response.start", status := 200 }],
        outcome := none } : AppRun).events =
      [{ type := "http.request" }] ++
        ({ type := "http.response.start", status := 200 } : Message) :: []) ∧
    (({ type := "http.response.start", status := 200 } : Message).type =
        "http.response.start") ∧
    (∃ q ∈ [({ type := "http.request" } : Message)],
        q.type = "http.request") ∧
    (∃ m' r p,
      (TimingMiddleware.run 0 { type := "http", method := "GET", path := "/" }
          { events := [{ type := "http.request" },
              { type := "http.response.start", status := 200 }],
            outcome := none }).sent.get? 1 = some m' ∧
      ("x-bug-start-time", toString 0) ∈ m'.headers ∧
      ("x-bug-receive-time", toString r) ∈ m'.headers ∧
      ("x-bug-respond-time", toString p) ∈ m'.headers ∧
      0 ≤ r ∧ r ≤ p) :=
  ⟨rfl, rfl, rfl, ⟨{ type := "http.request" }, List.mem_singleton.mpr rfl, rfl⟩,
    C5_response_start_headers 0 _ _ [{ type := "http.request" }] _ [] rfl rfl
      rfl ⟨{ type := "http.request" }, List.mem_singleton.mpr rfl, rfl⟩⟩

/-- C6 counterexample: in the spec's own scenario (request, response.start
with empty headers, response.body, normal return) the headers of the
forwarded response.start are exactly X-Bug-Start-Time, X-Bug-Receive-Time
and X-Bug-Respond-Time — X-Bug-End-Time is absent, although the claim lists
it among the injected headers. -/
theorem C6_cx_no_end_time_header :
    ((TimingMiddleware.run 0 { type := "http", method := "GET", path := "/" }
        { events := [{ type := "http.request" },
            { type := "http.response.start", status := 200 },
            { type := "http.response.body", body := [48] }],
          outcome := none }).sent.get? 1).map Message.headers =
      some [("x-bug-start-time", "0"), ("x-bug-receive-time", "1"),
        ("x-bug-respond-time", "2")] := by decide

/-- C6 (amended): TimingMiddleware never injects X-Bug-End-Time into any
forwarded message: end_time is recorded only in the finally block, after the
response has started, and appears only in the exit log record.  Any header
of a forwarded message whose lowercased name is x-bug-end-time was already
a header of the corresponding incoming message. -/
theorem C6_end_time_never_injected (c : Nat) (scope : Scope) (app : AppRun)
    (i : Nat) (m0 m' : Message) (hscope : scope.type = "http")
    (h0 : app.events.get? i = some m0)
    (h' : (TimingMiddleware.run c scope app).sent.get? i = some m') :
    ∀ p ∈ m'.headers, pyLower p.1 = "x-bug-end-time" → p ∈ m0.headers := by
  rw [timing_run_http c app hscope] at h'
  dsimp only at h'
  have hkeys : KeysOK [("start_time", c)] := by
    intro kv hkv
    rcases List.mem_singleton.mp hkv with rfl
    exact Or.inl rfl
  have hforall := timingProcess_forall_endtime (c + 1) app.events hkeys
  exact forall2_get hforall i m0 m' h0 h'

/-- C6 witness: in the concrete scenario, every x-bug-end-time header of the
forwarded response.start (there is none) came from the incoming message. -/
theorem C6_witness :
    (({ type := "http", method := "GET", path := "/" } : Scope).type =
        "http") ∧
    (({ events := [{ type := "http.request" },
          { type := "http.response.start", status := 200 },
          { type := "http.response.body", body := [48] }],
        outcome := none } : AppRun).events.get? 1 =
      some { type := "http.response.start", status := 200 }) ∧
    ((TimingMiddleware.run 0 { type := "http", method := "GET", path := "/" }
        { events := [{ type := "http.request" },
            { type := "http.response.start", status := 200 },
            { type := "http.response.body", body := [48] }],
          outcome := none }).sent.get? 1 =
      some { type := "http.response.start", status := 200,
             headers := [("x-bug-start-time", "0"),
                         ("x-bug-receive-time", "1"),
                         ("x-bug-respond-time", "2")] }) ∧
    (∀ p ∈ [("x-bug-start-time", "0"), ("x-bug-receive-time", "1"),
        ("x-bug-respond-time", "2")],
      pyLower (p : String × String).1 = "x-bug-end-time" →
        p ∈ ({ type := "http.response.start", status := 200 } :
          Message).headers) :=
  ⟨rfl, rfl, by decide,
    C6_end_time_never_injected 0
      { type := "http", method := "GET", path := "/" }
      { events := [{ type := "http.request" },
          { type := "http.response.start", status := 200 },
          { type := "http.response.body", body := [48] }],
        outcome := none }
      1
      { type := "http.response.start", status := 200 }
      { type := "http.response.start", status := 200,
        headers := [("x-bug-start-time", "0"), ("x-bug-receive-time", "1"), ("x-bug-respond-time", "2")] }
      rfl rfl (by decide)⟩
